import Mathlib

set_option maxRecDepth 4000

/-!
Verification development for the bt-auto-dumper repository
(src/bt_auto_dumper/_v2/__main__.py), a CLI tool that runs diagnostic
shell commands for a subnet, archives their output, and posts the
archive to an AutoValidator HTTP service with a signed request.

The Python code is shallowly embedded: Python str values are modelled
as Lean String (sequences of code points; lowercasing is modelled on
the ASCII range, which covers every alias and key the program uses),
byte strings as List Nat with entries below 256, dictionaries as
association lists with in-place update, the filesystem and network as
explicit arguments, and exceptions as Except.
-/

/-- Code points of a string, as natural numbers (Python str is a
sequence of code points). -/
def codepoints (s : String) : List Nat := s.data.map Char.toNat

/-- ASCII lowercasing of one code point, modelling Python str.lower on
the ASCII range (every codename, alias and config key in the program
is ASCII). -/
def pyLowerChar (n : Nat) : Nat := if 65 ≤ n ∧ n ≤ 90 then n + 32 else n

/-- Lowercasing of a code-point string. -/
def pyLower (s : List Nat) : List Nat := s.map pyLowerChar

/-- The separator characters removed in main before normalization:
underscore (95), hyphen (45) and dot (46), from re.sub applied to
the subnet identifier. -/
def isSep (n : Nat) : Bool := n == 95 || n == 45 || n == 46

/-- Deletion of every separator character, modelling the re.sub call
in main. -/
def removeSeps (s : List Nat) : List Nat := s.filter (fun n => !(isSep n))

/-! ## UTF-8 encoding and decoding

make_signed_request signs the string
method + url + headers_str + file_content.decode(errors=ignore),
encoded back to bytes. The decode step uses the UTF-8 codec with
invalid bytes dropped, so both directions of the codec are embedded.
-/

/-- UTF-8 encoding of a single code point (the encoding used by
Python str.encode). -/
def utf8EncodeChar (c : Nat) : List Nat :=
  if c < 128 then [c]
  else if c < 2048 then [192 + c / 64, 128 + c % 64]
  else if c < 65536 then [224 + c / 4096, 128 + c / 64 % 64, 128 + c % 64]
  else [240 + c / 262144, 128 + c / 4096 % 64, 128 + c / 64 % 64, 128 + c % 64]

/-- UTF-8 encoding of a code-point sequence. -/
def utf8Encode : List Nat → List Nat
  | [] => []
  | c :: cs => utf8EncodeChar c ++ utf8Encode cs

/-- A code point Python will encode: below 0x110000 and not a
surrogate. -/
def ValidCodepoint (c : Nat) : Prop := c < 1114112 ∧ ¬(55296 ≤ c ∧ c ≤ 57343)

instance (c : Nat) : Decidable (ValidCodepoint c) := by
  unfold ValidCodepoint; exact inferInstance

/-- Lower bound of the admissible second byte for a given lead byte
(0xE0 and 0xF0 exclude overlong encodings). -/
def contLo (b : Nat) : Nat := if b = 224 then 160 else if b = 240 then 144 else 128

/-- Upper bound of the admissible second byte for a given lead byte
(0xED excludes surrogates, 0xF4 excludes code points above 0x10FFFF). -/
def contHi (b : Nat) : Nat := if b = 237 then 159 else if b = 244 then 143 else 191

/-- UTF-8 decoding with invalid sequences dropped, modelling Python
bytes.decode with the ignore error handler: each maximal invalid
subsequence is skipped and decoding resumes at the next byte. -/
def utf8DecodeIgnore : List Nat → List Nat
  | [] => []
  | b :: rest =>
    if b < 128 then b :: utf8DecodeIgnore rest
    else if 194 ≤ b ∧ b ≤ 223 then
      match h2 : rest with
      | [] => []
      | b2 :: rest2 =>
        if 128 ≤ b2 ∧ b2 ≤ 191 then ((b - 192) * 64 + (b2 - 128)) :: utf8DecodeIgnore rest2
        else utf8DecodeIgnore rest
    else if 224 ≤ b ∧ b ≤ 239 then
      match h2 : rest with
      | [] => []
      | b2 :: rest2 =>
        if contLo b ≤ b2 ∧ b2 ≤ contHi b then
          match h3 : rest2 with
          | [] => []
          | b3 :: rest3 =>
            if 128 ≤ b3 ∧ b3 ≤ 191 then
              ((b - 224) * 4096 + (b2 - 128) * 64 + (b3 - 128)) :: utf8DecodeIgnore rest3
            else utf8DecodeIgnore rest2
        else utf8DecodeIgnore rest
    else if 240 ≤ b ∧ b ≤ 244 then
      match h2 : rest with
      | [] => []
      | b2 :: rest2 =>
        if contLo b ≤ b2 ∧ b2 ≤ contHi b then
          match h3 : rest2 with
          | [] => []
          | b3 :: rest3 =>
            if 128 ≤ b3 ∧ b3 ≤ 191 then
              match h4 : rest3 with
              | [] => []
              | b4 :: rest4 =>
                if 128 ≤ b4 ∧ b4 ≤ 191 then
                  ((b - 240) * 262144 + (b2 - 128) * 4096 + (b3 - 128) * 64 + (b4 - 128)) :: utf8DecodeIgnore rest4
                else utf8DecodeIgnore rest3
            else utf8DecodeIgnore rest2
        else utf8DecodeIgnore rest
    else utf8DecodeIgnore rest
termination_by l => l.length
decreasing_by
all_goals simp_wf
all_goals (try subst_vars)
all_goals (try simp [List.length_cons])
all_goals omega

theorem utf8Encode_append (a b : List Nat) :
    utf8Encode (a ++ b) = utf8Encode a ++ utf8Encode b := by
  induction a with
  | nil => rfl
  | cons c cs ih => simp [utf8Encode, ih]

theorem decodeStep1 (b : Nat) (h : b < 128) (rest : List Nat) :
    utf8DecodeIgnore (b :: rest) = b :: utf8DecodeIgnore rest := by
  rcases rest with _ | ⟨x, _ | ⟨y, _ | ⟨z, r⟩⟩⟩
  · rw [utf8DecodeIgnore.eq_2, if_pos h]
  · rw [utf8DecodeIgnore.eq_3, if_pos h]
  · rw [utf8DecodeIgnore.eq_4, if_pos h]
  · rw [utf8DecodeIgnore.eq_5, if_pos h]

theorem decodeStep2 (b b2 : Nat) (hb : 194 ≤ b) (hb' : b ≤ 223)
    (h2 : 128 ≤ b2) (h2' : b2 ≤ 191) (rest : List Nat) :
    utf8DecodeIgnore (b :: b2 :: rest) =
      ((b - 192) * 64 + (b2 - 128)) :: utf8DecodeIgnore rest := by
  rcases rest with _ | ⟨x, _ | ⟨y, r⟩⟩
  · rw [utf8DecodeIgnore.eq_3, if_neg (by omega), if_pos ⟨hb, hb'⟩, if_pos ⟨h2, h2'⟩]
  · rw [utf8DecodeIgnore.eq_4, if_neg (by omega), if_pos ⟨hb, hb'⟩, if_pos ⟨h2, h2'⟩]
  · rw [utf8DecodeIgnore.eq_5, if_neg (by omega), if_pos ⟨hb, hb'⟩, if_pos ⟨h2, h2'⟩]

theorem decodeStep3 (b b2 b3 : Nat) (hb : 224 ≤ b) (hb' : b ≤ 239)
    (h2 : contLo b ≤ b2) (h2' : b2 ≤ contHi b)
    (h3 : 128 ≤ b3) (h3' : b3 ≤ 191) (rest : List Nat) :
    utf8DecodeIgnore (b :: b2 :: b3 :: rest) =
      ((b - 224) * 4096 + (b2 - 128) * 64 + (b3 - 128)) :: utf8DecodeIgnore rest := by
  rcases rest with _ | ⟨x, r⟩
  · rw [utf8DecodeIgnore.eq_4, if_neg (by omega), if_neg (by omega), if_pos ⟨hb, hb'⟩,
      if_pos ⟨h2, h2'⟩, if_pos ⟨h3, h3'⟩]
  · rw [utf8DecodeIgnore.eq_5, if_neg (by omega), if_neg (by omega), if_pos ⟨hb, hb'⟩,
      if_pos ⟨h2, h2'⟩, if_pos ⟨h3, h3'⟩]

theorem decodeStep4 (b b2 b3 b4 : Nat) (hb : 240 ≤ b) (hb' : b ≤ 244)
    (h2 : contLo b ≤ b2) (h2' : b2 ≤ contHi b)
    (h3 : 128 ≤ b3) (h3' : b3 ≤ 191)
    (h4 : 128 ≤ b4) (h4' : b4 ≤ 191) (rest : List Nat) :
    utf8DecodeIgnore (b :: b2 :: b3 :: b4 :: rest) =
      ((b - 240) * 262144 + (b2 - 128) * 4096 + (b3 - 128) * 64 + (b4 - 128)) ::
        utf8DecodeIgnore rest := by
  rw [utf8DecodeIgnore.eq_5, if_neg (by omega), if_neg (by omega), if_neg (by omega),
    if_pos ⟨hb, hb'⟩, if_pos ⟨h2, h2'⟩, if_pos ⟨h3, h3'⟩, if_pos ⟨h4, h4'⟩]

theorem utf8DecodeIgnore_encodeChar (c : Nat) (rest : List Nat)
    (hv : ValidCodepoint c) :
    utf8DecodeIgnore (utf8EncodeChar c ++ rest) = c :: utf8DecodeIgnore rest := by
  obtain ⟨h1114, hsur⟩ := hv
  by_cases hA : c < 128
  · rw [show utf8EncodeChar c = [c] from by simp [utf8EncodeChar, hA]]
    simpa using decodeStep1 c hA rest
  · by_cases hB : c < 2048
    · rw [show utf8EncodeChar c = [192 + c / 64, 128 + c % 64] from by
        simp [utf8EncodeChar, hA, hB]]
      simp only [List.cons_append, List.nil_append]
      rw [decodeStep2 _ _ (by omega) (by omega) (by omega) (by omega) rest]
      congr 1
      omega
    · by_cases hC : c < 65536
      · rw [show utf8EncodeChar c = [224 + c / 4096, 128 + c / 64 % 64, 128 + c % 64]
          from by simp [utf8EncodeChar, hA, hB, hC]]
        simp only [List.cons_append, List.nil_append]
        rw [decodeStep3 _ _ _ (by omega) (by omega)
          (by simp only [contLo]; split_ifs <;> omega)
          (by simp only [contHi]; split_ifs <;> omega)
          (by omega) (by omega) rest]
        congr 1
        omega
      · rw [show utf8EncodeChar c =
            [240 + c / 262144, 128 + c / 4096 % 64, 128 + c / 64 % 64, 128 + c % 64]
          from by simp [utf8EncodeChar, hA, hB, hC]]
        simp only [List.cons_append, List.nil_append]
        rw [decodeStep4 _ _ _ _ (by omega) (by omega)
          (by simp only [contLo]; split_ifs <;> omega)
          (by simp only [contHi]; split_ifs <;> omega)
          (by omega) (by omega) (by omega) (by omega) rest]
        congr 1
        omega

/-- Decoding with the ignore handler is a left inverse of encoding on
valid code points: a valid UTF-8 byte string decodes to exactly the
code points it encodes. -/
theorem utf8DecodeIgnore_utf8Encode (cs : List Nat)
    (h : ∀ c ∈ cs, ValidCodepoint c) :
    utf8DecodeIgnore (utf8Encode cs) = cs := by
  induction cs with
  | nil => rw [show utf8Encode [] = [] from rfl, utf8DecodeIgnore.eq_1]
  | cons c cs ih =>
    rw [utf8Encode, utf8DecodeIgnore_encodeChar c _ (h c (List.mem_cons_self c cs)),
      ih (fun x hx => h x (List.mem_cons_of_mem _ hx))]

/-! ## Dictionaries

Python dict with string keys, modelled as an association list with
unique keys: assignment replaces the value in place, or appends a new
entry at the end (insertion order). -/

/-- Dictionary lookup (first matching key). -/
def alGet {α : Type} : List (String × α) → String → Option α
  | [], _ => none
  | (k1, v1) :: rest, k => if k1 = k then some v1 else alGet rest k

/-- Dictionary assignment: replace the first entry with the key, or
append a new entry. -/
def alSet {α : Type} : List (String × α) → String → α → List (String × α)
  | [], k, v => [(k, v)]
  | (k1, v1) :: rest, k, v =>
    if k1 = k then (k, v) :: rest else (k1, v1) :: alSet rest k v

theorem alGet_alSet_self {α : Type} (l : List (String × α)) (k : String) (v : α) :
    alGet (alSet l k v) k = some v := by
  induction l with
  | nil => simp [alSet, alGet]
  | cons p rest ih =>
    by_cases h : p.1 = k
    · simp [alSet, h, alGet]
    · simp only [alSet, alGet]
      rw [if_neg h]
      simp only [alGet]
      rw [if_neg h]
      exact ih

theorem alGet_alSet_ne {α : Type} (l : List (String × α)) (k k' : String) (v : α)
    (h : k' ≠ k) : alGet (alSet l k v) k' = alGet l k' := by
  induction l with
  | nil => simp [alSet, alGet]; exact fun hh => h hh.symm
  | cons p rest ih =>
    by_cases hp : p.1 = k
    · simp only [alSet]
      rw [if_pos hp]
      simp only [alGet]
      rw [if_neg (fun hh => h hh.symm), if_neg (by rw [hp]; exact fun hh => h hh.symm)]
    · simp only [alSet]
      rw [if_neg hp]
      simp only [alGet]
      by_cases hk' : p.1 = k'
      · rw [if_pos hk', if_pos hk']
      · rw [if_neg hk', if_neg hk']
        exact ih

/-! ## JSON serialization and hex encoding

json.dumps with sort_keys=True on a dict of strings: entries sorted by
key (code-point order), default separators, ensure_ascii escaping.
bytes.hex gives lowercase two-digit hex per byte. -/

/-- Hexadecimal digit characters, lowercase. -/
def hexDigit (n : Nat) : Char := "0123456789abcdef".data.getD n '0'

/-- The bytes.hex encoding: two lowercase hex digits per byte. -/
def hexEncode (bs : List Nat) : String :=
  ⟨bs.foldr (fun b acc => hexDigit (b / 16 % 16) :: hexDigit (b % 16) :: acc) []⟩

/-- A \u escape for a code unit, four lowercase hex digits. -/
def uEsc4 (n : Nat) : List Char :=
  ['\\', 'u', hexDigit (n / 4096 % 16), hexDigit (n / 256 % 16),
    hexDigit (n / 16 % 16), hexDigit (n % 16)]

/-- JSON string escaping of one character as json.dumps does with
ensure_ascii=True: two-character shortcuts for the common escapes,
printable ASCII kept, everything else \u-escaped (surrogate pairs
above 0xFFFF). -/
def jsonEscapeChar (c : Char) : List Char :=
  if c = '"' then ['\\', '"']
  else if c = '\\' then ['\\', '\\']
  else if c = '\n' then ['\\', 'n']
  else if c = '\r' then ['\\', 'r']
  else if c = '\t' then ['\\', 't']
  else if c.toNat = 8 then ['\\', 'b']
  else if c.toNat = 12 then ['\\', 'f']
  else if c.toNat < 32 ∨ 127 ≤ c.toNat then
    if c.toNat < 65536 then uEsc4 c.toNat
    else uEsc4 (55296 + (c.toNat - 65536) / 1024) ++ uEsc4 (56320 + (c.toNat - 65536) % 1024)
  else [c]

/-- A JSON string literal: quoted, escaped. -/
def jsonString (s : String) : String :=
  ⟨'"' :: s.data.foldr (fun c acc => jsonEscapeChar c ++ acc) ['"']⟩

/-- Code-point lexicographic comparison, the order Python sorted uses
on str. -/
def cpLt : List Nat → List Nat → Bool
  | [], [] => false
  | [], _ :: _ => true
  | _ :: _, [] => false
  | a :: as, b :: bs => if a < b then true else if b < a then false else cpLt as bs

/-- Key comparison for sort_keys. -/
def strKeyLt (a b : String) : Bool := cpLt (codepoints a) (codepoints b)

/-- Insertion into a key-sorted list. -/
def insertByKey (p : String × String) : List (String × String) → List (String × String)
  | [] => [p]
  | q :: rest => if strKeyLt q.1 p.1 then q :: insertByKey p rest else p :: q :: rest

/-- Sorting by key. -/
def sortByKey (l : List (String × String)) : List (String × String) :=
  l.foldr insertByKey []

/-- json.dumps of a string dict with sort_keys=True and the default
separators: entries in key order, "key": "value" joined by commas
inside braces. -/
def jsonDumpsSorted (d : List (String × String)) : String :=
  "\x7b" ++ String.intercalate ", "
    ((sortByKey d).map (fun p => jsonString p.1 ++ ": " ++ jsonString p.2)) ++ "\x7d"

/-! ## Subnet codename normalization

CODENAME_MAP and normalize_codename from the source, and the pipeline
of main lines 74 and 75: lowercase, strip separators, normalize.
Identifier strings are code-point lists here. -/

/-- Aliases of the computehorde codename. -/
def aliasesCH : List (List Nat) :=
  [codepoints "sn12", codepoints "12", codepoints "computehorde"]

/-- Aliases of the omron codename. -/
def aliasesOM : List (List Nat) :=
  [codepoints "sn13", codepoints "13", codepoints "omron", codepoints "Omron"]

/-- Aliases of the textprompting codename. -/
def aliasesTP : List (List Nat) :=
  [codepoints "sn14", codepoints "14", codepoints "textprompting"]

/-- The alias table of the source, in its order. -/
def CODENAME_MAP : List (List Nat × List (List Nat)) :=
  [(codepoints "computehorde", aliasesCH),
   (codepoints "omron", aliasesOM),
   (codepoints "textprompting", aliasesTP)]

/-- The loop body of normalize_codename: find the first table entry
one of whose lowercased aliases equals the lowered codename; fall
through to the original argument. -/
def lookupCodename : List (List Nat × List (List Nat)) → List Nat → List Nat → List Nat
  | [], _, orig => orig
  | (normalized, aliases) :: rest, cl, orig =>
    if cl ∈ aliases.map pyLower then normalized else lookupCodename rest cl orig

/-- normalize_codename from the source: lowercase the argument, scan
the alias table, return the canonical codename on a hit and the
unchanged argument otherwise. -/
def normalize_codename (codename : List Nat) : List Nat :=
  lookupCodename CODENAME_MAP (pyLower codename) codename

/-- The identifier actually used for the run (main lines 74 and 75):
lowercase, delete separators, then normalize_codename. -/
def runIdentifier (s : List Nat) : List Nat :=
  normalize_codename (removeSeps (pyLower s))

/-- Modelled from the spec wording of the claim: resolve the lowered,
separator-free form through the alias table directly, returning the
canonical codename when it equals any alias, else the filtered string
itself. -/
def specLookup : List (List Nat × List (List Nat)) → List Nat → List Nat
  | [], t => t
  | (normalized, aliases) :: rest, t =>
    if t ∈ aliases then normalized else specLookup rest t

/-- The claim-side description of the run identifier. -/
def resolveIdentifierSpec (s : List Nat) : List Nat :=
  specLookup CODENAME_MAP (removeSeps (pyLower s))

/-! ## The signed request

make_signed_request (source lines 120 to 161). The wallet is the pair
of its hotkey address and its signing function; the network is an
explicit function from requests to responses; the file argument is
none for an empty file path (Python falsy) and some bytes for a
nonempty path whose file holds those bytes. The local variable files
is assigned only inside the `if file_path:` block but is passed to
requests.request unconditionally, so the empty-path case raises
UnboundLocalError, modelled as an error value. -/

/-- The Python exceptions the embedding distinguishes. -/
inductive PyErr
  | unboundLocalFiles
  deriving DecidableEq, Repr

/-- A bittensor wallet, reduced to what the code uses: the hotkey
ss58 address and the signing function of the hotkey. -/
structure Wallet where
  ss58_address : String
  sign : List Nat → List Nat

/-- An HTTP request as requests.request receives it. -/
structure HttpRequest where
  method : String
  url : String
  headers : List (String × String)
  fileBytes : Option (List Nat)
  deriving DecidableEq

/-- An HTTP response: status code, text body, and the json() value
(a list of command strings where the code parses it). -/
structure HttpResponse where
  status_code : Nat
  text : String
  jsonBody : List String

/-- The headers after the Nonce, Hotkey and Realm assignments at the
top of make_signed_request. -/
def signHeaders (headers : List (String × String)) (nonce hotkey realm : String) :
    List (String × String) :=
  alSet (alSet (alSet headers "Nonce" nonce) "Hotkey" hotkey) "Realm" realm

/-- The byte string make_signed_request signs: the UTF-8 encoding of
method + url + json.dumps(headers, sort_keys=True) +
file_content.decode(errors=ignore). -/
def dataToSign (method url : String) (headers : List (String × String))
    (file_content : List Nat) : List Nat :=
  utf8Encode (codepoints method ++ codepoints url ++
    codepoints (jsonDumpsSorted headers) ++ utf8DecodeIgnore file_content)

/-- make_signed_request: set Nonce, Hotkey and Realm, read the file
when the path is nonempty, sign, inject the hex signature as the
Signature header, then call requests.request. With an empty path the
local variable files was never assigned and the call raises. Returns
the response, the final headers and the request that was made. -/
def make_signed_request (net : HttpRequest → HttpResponse) (method url : String)
    (headers : List (String × String)) (file : Option (List Nat))
    (wallet : Wallet) (subnet_realm nonce : String) :
    Except PyErr (HttpResponse × List (String × String) × HttpRequest) :=
  let h := signHeaders headers nonce wallet.ss58_address subnet_realm
  let file_content : List Nat := file.getD []
  let signature := hexEncode (wallet.sign (dataToSign method url h file_content))
  let h2 := alSet h "Signature" signature
  match file with
  | none => Except.error PyErr.unboundLocalFiles
  | some bs =>
    let req : HttpRequest := ⟨method, url, h2, some bs⟩
    Except.ok (net req, h2, req)

/-- request_commands_to_server (source lines 270 to 299): GET on the
commands endpoint with an empty file path, then return json() on 200
and the empty list otherwise. -/
def request_commands_to_server (net : HttpRequest → HttpResponse)
    (subnet_identifier subnet_realm : String) (wallet : Wallet)
    (autovalidator_address nonce : String) : Except PyErr (List String) :=
  let url := autovalidator_address ++ "/api/v1/commands/"
  let headers := [("Note", ""), ("SubnetID", subnet_identifier)]
  match make_signed_request net "GET" url headers none wallet subnet_realm nonce with
  | Except.error e => Except.error e
  | Except.ok (resp, _, _) =>
    if resp.status_code = 200 then Except.ok resp.jsonBody
    else Except.ok []

/-! ## Command execution and upload -/

/-- The result of subprocess.run with captured output. -/
structure CompletedProcess where
  returncode : Int
  stdout : String
  stderr : String

/-- The output file name of the i-th command (1-based). -/
def outputFileName (subnet_identifier : String) (i : Nat) : String :=
  subnet_identifier ++ "_" ++ toString i ++ ".txt"

/-- The command loop of dump_and_upload (source lines 105 to 111),
started at index i: each command is run through the shell and its file
holds the command line, a newline, and the captured stdout. -/
def dumpOutputs (shell : String → CompletedProcess) (subnet_identifier : String) :
    Nat → List String → List (String × String)
  | _, [] => []
  | i, c :: rest =>
    (outputFileName subnet_identifier i,
      "Command: " ++ c ++ "\n" ++ (shell c).stdout) ::
      dumpOutputs shell subnet_identifier (i + 1) rest

/-- The zip packing loop (source lines 114 to 116): entries are
written one by one in list order. -/
def zipArchive (files : List (String × String)) : List (String × String) :=
  files.foldl (fun acc f => acc ++ [f]) []

/-- send_to_autovalidator (source lines 164 to 196): POST the zip to
the files endpoint via make_signed_request, then print per status
code. Returns the printed lines and the requests that were made. -/
def send_to_autovalidator (net : HttpRequest → HttpResponse) (zipBytes : List Nat)
    (wallet : Wallet) (autovalidator_address note subnet_identifier subnet_realm
    nonce : String) : Except PyErr (List String × List HttpRequest) :=
  let url := autovalidator_address ++ "/api/v1/files/"
  let headers := [("Note", note), ("SubnetID", subnet_identifier)]
  match make_signed_request net "POST" url headers (some zipBytes) wallet subnet_realm nonce with
  | Except.error e => Except.error e
  | Except.ok (resp, _, req) =>
    if resp.status_code = 201 then
      Except.ok (["File successfully uploaded and resource created."], [req])
    else if resp.status_code = 200 then
      Except.ok (["Request succeeded."], [req])
    else
      Except.ok (["Failed to upload file. Status code: " ++ toString resp.status_code,
        resp.text], [req])

/-- What dump_and_upload produced: printed lines, output files
written, zip entries, upload requests made. -/
structure DumpResult where
  printed : List String
  filesWritten : List (String × String)
  zipEntries : List (String × String)
  uploadRequests : List HttpRequest

/-- dump_and_upload (source lines 80 to 117): fetch the command list,
return early when it is empty, else run the commands, zip the outputs
and upload. zipSer stands for the zip file format serialization of
the archive read back from disk. -/
def dump_and_upload (net : HttpRequest → HttpResponse)
    (shell : String → CompletedProcess)
    (zipSer : List (String × String) → List Nat)
    (subnet_identifier subnet_realm : String) (wallet : Wallet)
    (autovalidator_address note nonce1 nonce2 : String) : Except PyErr DumpResult :=
  match request_commands_to_server net subnet_identifier subnet_realm wallet
      autovalidator_address nonce1 with
  | Except.error e => Except.error e
  | Except.ok commands =>
    if commands = [] then
      Except.ok ⟨["Subnet identifier " ++ subnet_identifier ++ " not found."], [], [], []⟩
    else
      let files := dumpOutputs shell subnet_identifier 1 commands
      let zip := zipArchive files
      match send_to_autovalidator net (zipSer zip) wallet autovalidator_address note
          subnet_identifier subnet_realm nonce2 with
      | Except.error e => Except.error e
      | Except.ok (msgs, reqs) => Except.ok ⟨msgs, files, zip, reqs⟩

/-! ## Configuration file -/

/-- A parsed INI file: sections of key-value pairs. -/
def Ini : Type := List (String × List (String × String))

/-- configparser get: section lookup then option lookup. -/
def iniGet (ini : Ini) (sec key : String) : Option String :=
  match alGet ini sec with
  | none => none
  | some tab => alGet tab key

/-- The ways load_config raises. -/
inductive LoadErr
  | fileNotFound
  | parseError
  | missingKey
  deriving DecidableEq, Repr

/-- load_config (source lines 199 to 229). The argument models the
file at config_path: none when the file does not exist, some (error)
when configparser fails to parse it, some (ok ini) when it parses.
Returns the pair (autovalidator_address, codename) of the
autovalidator section, or raises. -/
def load_config (file : Option (Except Unit Ini)) : Except LoadErr (String × String) :=
  match file with
  | none => Except.error LoadErr.fileNotFound
  | some (Except.error _) => Except.error LoadErr.parseError
  | some (Except.ok ini) =>
    match iniGet ini "autovalidator" "autovalidator_address",
        iniGet ini "autovalidator" "codename" with
    | some a, some c => Except.ok (a, c)
    | _, _ => Except.error LoadErr.missingKey

/-- The ways update_confg raises. -/
inductive UpdateErr
  | readError
  | noSection
  deriving DecidableEq, Repr

/-- configparser set: raises NoSectionError when the section is
missing, else replaces or appends the option in the section. -/
def iniSet (ini : Ini) (sec key v : String) : Except UpdateErr Ini :=
  match alGet ini sec with
  | none => Except.error UpdateErr.noSection
  | some tab => Except.ok (alSet ini sec (alSet tab key v))

/-- update_confg (source lines 232 to 267): start from the parsed
file, or from a fresh autovalidator section when the file does not
exist; set autovalidator_address when the new address is nonempty
(Python truthiness); set codename when the new codename is nonempty;
the result is what config.write writes back. -/
def update_confg (file : Option (Except Unit Ini))
    (new_autovalidator_address new_codename : String) : Except UpdateErr Ini :=
  match (match file with
    | none => Except.ok ([("autovalidator", [])] : Ini)
    | some (Except.error _) => Except.error UpdateErr.readError
    | some (Except.ok ini) => Except.ok ini) with
  | Except.error e => Except.error e
  | Except.ok config =>
    match (if new_autovalidator_address ≠ "" then
        iniSet config "autovalidator" "autovalidator_address" new_autovalidator_address
      else Except.ok config) with
    | Except.error e => Except.error e
    | Except.ok config2 =>
      match (if new_codename ≠ "" then
          iniSet config2 "autovalidator" "codename" new_codename
        else Except.ok config2) with
      | Except.error e => Except.error e
      | Except.ok config3 => Except.ok config3

/-! ## Demonstration values used by witnesses -/

/-- A network oracle for concrete instances. -/
def demoNet : HttpRequest → HttpResponse :=
  fun r => if r.method = "GET" then ⟨404, "not found", []⟩ else ⟨201, "created", []⟩

/-- A wallet for concrete instances. -/
def demoWallet : Wallet := ⟨"5DemoHotkey", fun bs => bs⟩

/-- A second wallet with the same address and signing function. -/
def demoWallet2 : Wallet := ⟨"5DemoHotkey", fun bs => bs⟩

/-- A config file with both keys present. -/
def demoIni : Ini :=
  [("autovalidator", [("autovalidator_address", "http://old"), ("codename", "computehorde")])]

/-- A shell oracle for the echo example. -/
def shellAB : String → CompletedProcess := fun c =>
  if c = "echo A" then ⟨0, "A\n", ""⟩
  else if c = "echo B" then ⟨0, "B\n", ""⟩
  else ⟨127, "", "command not found\n"⟩

/-! ## Claims -/

/-- C2: the claim says make_signed_request completes normally on an
empty file path and performs the request; the code instead raises
UnboundLocalError there, because the local variable files is assigned
only inside the `if file_path:` block yet is passed to
requests.request unconditionally. This theorem evaluates the
embedding at the failing input: every call with an empty file path
raises, for every method, URL, headers, wallet, realm and nonce. -/
theorem make_signed_request_empty_path_raises (net : HttpRequest → HttpResponse)
    (method url : String) (headers : List (String × String)) (wallet : Wallet)
    (subnet_realm nonce : String) :
    make_signed_request net method url headers none wallet subnet_realm nonce =
      Except.error PyErr.unboundLocalFiles := rfl

/-- C3: the claim says a non-200 command-list response makes
request_commands_to_server return the empty list and dump_and_upload
return immediately with no file, zip or upload. In the code,
request_commands_to_server always passes an empty file path to
make_signed_request, which raises UnboundLocalError before any
response is seen, so the function never returns the empty list and
dump_and_upload propagates the exception instead of returning: for
every network oracle (hence every status code) both calls raise. -/
theorem request_commands_to_server_raises (net : HttpRequest → HttpResponse)
    (subnet_identifier subnet_realm : String) (wallet : Wallet)
    (autovalidator_address nonce : String) :
    request_commands_to_server net subnet_identifier subnet_realm wallet
        autovalidator_address nonce = Except.error PyErr.unboundLocalFiles ∧
    ∀ (shell : String → CompletedProcess) (zipSer : List (String × String) → List Nat)
      (note nonce2 : String),
      dump_and_upload net shell zipSer subnet_identifier subnet_realm wallet
        autovalidator_address note nonce nonce2 = Except.error PyErr.unboundLocalFiles :=
  ⟨rfl, fun _ _ _ _ => rfl⟩

/-- C8: the signing computation is deterministic: two wallets with
the same signing function and the same hotkey address produce the
same result of make_signed_request, the time-based nonce held fixed,
for the same method, URL, headers and body. -/
theorem make_signed_request_deterministic (net : HttpRequest → HttpResponse)
    (method url : String) (headers : List (String × String)) (file : Option (List Nat))
    (realm nonce : String) (w1 w2 : Wallet)
    (hsign : w1.sign = w2.sign) (haddr : w1.ss58_address = w2.ss58_address) :
    make_signed_request net method url headers file w1 realm nonce =
      make_signed_request net method url headers file w2 realm nonce := by
  cases w1 with
  | mk a1 s1 =>
    cases w2 with
    | mk a2 s2 =>
      have h1 : s1 = s2 := hsign
      have h2 : a1 = a2 := haddr
      subst h1
      subst h2
      rfl

/-- C8 witness: two syntactically distinct wallets with equal fields
give the same signed request on a concrete input. -/
theorem make_signed_request_deterministic_witness :
    make_signed_request demoNet "POST" "http://a" [] (some [1, 2]) demoWallet "mainnet" "1.0" =
      make_signed_request demoNet "POST" "http://a" [] (some [1, 2]) demoWallet2 "mainnet" "1.0" :=
  make_signed_request_deterministic demoNet "POST" "http://a" [] (some [1, 2]) "mainnet" "1.0"
    demoWallet demoWallet2 rfl rfl

/-- C9: send_to_autovalidator makes exactly one request and returns
normally whatever the status code: 201 prints the created message,
200 the soft success message, and anything else the failure message
with the status code and the response text; no retry happens. -/
theorem send_to_autovalidator_status_handling (net : HttpRequest → HttpResponse)
    (zipBytes : List Nat) (wallet : Wallet)
    (addr note sid realm nonce : String) :
    ∃ req : HttpRequest,
      send_to_autovalidator net zipBytes wallet addr note sid realm nonce =
        (if (net req).status_code = 201 then
          Except.ok (["File successfully uploaded and resource created."], [req])
        else if (net req).status_code = 200 then
          Except.ok (["Request succeeded."], [req])
        else
          Except.ok (["Failed to upload file. Status code: " ++
            toString (net req).status_code, (net req).text], [req])) :=
  ⟨_, rfl⟩

/-- C10: normalize_codename is idempotent: each canonical codename is
among its own aliases, and unmatched identifiers return unchanged. -/
theorem normalize_codename_idempotent (s : List Nat) :
    normalize_codename (normalize_codename s) = normalize_codename s := by
  by_cases h1 : pyLower s ∈ aliasesCH.map pyLower
  · have e : normalize_codename s = codepoints "computehorde" := by
      simp only [normalize_codename, CODENAME_MAP, lookupCodename]
      rw [if_pos h1]
    rw [e]
    decide
  · by_cases h2 : pyLower s ∈ aliasesOM.map pyLower
    · have e : normalize_codename s = codepoints "omron" := by
        simp only [normalize_codename, CODENAME_MAP, lookupCodename]
        rw [if_neg h1, if_pos h2]
      rw [e]
      decide
    · by_cases h3 : pyLower s ∈ aliasesTP.map pyLower
      · have e : normalize_codename s = codepoints "textprompting" := by
          simp only [normalize_codename, CODENAME_MAP, lookupCodename]
          rw [if_neg h1, if_neg h2, if_pos h3]
        rw [e]
        decide
      · have e : normalize_codename s = s := by
          simp only [normalize_codename, CODENAME_MAP, lookupCodename]
          rw [if_neg h1, if_neg h2, if_neg h3]
        rw [e, e]

/-- C1 counterexample: the signed byte string is not the
concatenation of method, URL, serialized headers and the exact file
bytes. For the file consisting of the single byte 255 (as any binary
zip body contains bytes invalid in UTF-8), decode with the ignore
handler drops the byte, so the signed bytes lack it. -/
theorem make_signed_request_exact_body_counterexample :
    ¬ (dataToSign "POST" "http://av/api/v1/files/"
        (signHeaders [("Note", "note"), ("SubnetID", "computehorde")]
          "1700000000.0" "hk123" "mainnet") [255] =
      utf8Encode (codepoints "POST") ++
        utf8Encode (codepoints "http://av/api/v1/files/") ++
        utf8Encode (codepoints (jsonDumpsSorted
          (signHeaders [("Note", "note"), ("SubnetID", "computehorde")]
            "1700000000.0" "hk123" "mainnet"))) ++ [255]) := by
  have h255 : utf8DecodeIgnore [255] = [] := by
    simp [utf8DecodeIgnore.eq_2, utf8DecodeIgnore.eq_1]
  simp only [dataToSign, h255]
  decide

/-- C1 (amended): at signing time the headers already hold Nonce,
Hotkey and Realm; the signed byte string is the UTF-8 encoding of
method + URL + key-sorted JSON headers + the file bytes decoded with
invalid bytes dropped, which equals the concatenation with the exact
request body bytes precisely when the file is valid UTF-8 (here:
when the bytes encode some valid code-point sequence); the
hex-encoded signature is injected as the Signature header and the
request body is the file bytes. -/
theorem make_signed_request_signs_utf8_body (net : HttpRequest → HttpResponse)
    (method url : String) (headers : List (String × String)) (fileBytes cs : List Nat)
    (wallet : Wallet) (realm nonce : String)
    (hval : ∀ c ∈ cs, ValidCodepoint c) (henc : fileBytes = utf8Encode cs) :
    dataToSign method url (signHeaders headers nonce wallet.ss58_address realm) fileBytes =
      utf8Encode (codepoints method) ++ utf8Encode (codepoints url) ++
        utf8Encode (codepoints (jsonDumpsSorted
          (signHeaders headers nonce wallet.ss58_address realm))) ++ fileBytes ∧
    make_signed_request net method url headers (some fileBytes) wallet realm nonce =
      Except.ok
        (net ⟨method, url,
            alSet (signHeaders headers nonce wallet.ss58_address realm) "Signature"
              (hexEncode (wallet.sign (dataToSign method url
                (signHeaders headers nonce wallet.ss58_address realm) fileBytes))),
            some fileBytes⟩,
          alSet (signHeaders headers nonce wallet.ss58_address realm) "Signature"
            (hexEncode (wallet.sign (dataToSign method url
              (signHeaders headers nonce wallet.ss58_address realm) fileBytes))),
          ⟨method, url,
            alSet (signHeaders headers nonce wallet.ss58_address realm) "Signature"
              (hexEncode (wallet.sign (dataToSign method url
                (signHeaders headers nonce wallet.ss58_address realm) fileBytes))),
            some fileBytes⟩) := by
  constructor
  · subst henc
    rw [dataToSign, utf8DecodeIgnore_utf8Encode cs hval, utf8Encode_append,
      utf8Encode_append, utf8Encode_append]
  · rfl

/-- C1 witness: on the valid-UTF-8 body [80, 75] the signed bytes are
exactly the concatenation with the body. -/
theorem make_signed_request_signs_utf8_body_witness :
    dataToSign "POST" "http://av/api/v1/files/"
        (signHeaders [("Note", "n")] "1.0" demoWallet.ss58_address "mainnet") [80, 75] =
      utf8Encode (codepoints "POST") ++
        utf8Encode (codepoints "http://av/api/v1/files/") ++
        utf8Encode (codepoints (jsonDumpsSorted
          (signHeaders [("Note", "n")] "1.0" demoWallet.ss58_address "mainnet"))) ++
        [80, 75] :=
  (make_signed_request_signs_utf8_body demoNet "POST" "http://av/api/v1/files/"
    [("Note", "n")] [80, 75] [80, 75] demoWallet "mainnet" "1.0" (by decide) rfl).1

/-- C4: with a pre-existing config file holding both keys, setting
only the address leaves the codename unchanged in the written file,
and setting only the codename leaves the address unchanged. -/
theorem update_confg_frame (ini : Ini) (a c na nc : String)
    (ha : iniGet ini "autovalidator" "autovalidator_address" = some a)
    (hc : iniGet ini "autovalidator" "codename" = some c)
    (hna : na ≠ "") (hnc : nc ≠ "") :
    (∃ ini1, update_confg (some (Except.ok ini)) na "" = Except.ok ini1 ∧
      iniGet ini1 "autovalidator" "codename" = some c ∧
      iniGet ini1 "autovalidator" "autovalidator_address" = some na) ∧
    (∃ ini2, update_confg (some (Except.ok ini)) "" nc = Except.ok ini2 ∧
      iniGet ini2 "autovalidator" "autovalidator_address" = some a ∧
      iniGet ini2 "autovalidator" "codename" = some nc) := by
  obtain ⟨tab, htab⟩ : ∃ tab, alGet ini "autovalidator" = some tab := by
    unfold iniGet at ha
    cases h : alGet ini "autovalidator" with
    | none => rw [h] at ha; simp at ha
    | some tab => exact ⟨tab, rfl⟩
  have htaba : alGet tab "autovalidator_address" = some a := by
    unfold iniGet at ha; rw [htab] at ha; exact ha
  have htabc : alGet tab "codename" = some c := by
    unfold iniGet at hc; rw [htab] at hc; exact hc
  constructor
  · refine ⟨alSet ini "autovalidator" (alSet tab "autovalidator_address" na), ?_, ?_, ?_⟩
    · simp [update_confg, iniSet, htab, hna]
    · simp only [iniGet, alGet_alSet_self]
      rw [alGet_alSet_ne tab "autovalidator_address" "codename" na (by decide), htabc]
    · simp only [iniGet, alGet_alSet_self]
  · refine ⟨alSet ini "autovalidator" (alSet tab "codename" nc), ?_, ?_, ?_⟩
    · simp [update_confg, iniSet, htab, hnc]
    · simp only [iniGet, alGet_alSet_self]
      rw [alGet_alSet_ne tab "codename" "autovalidator_address" nc (by decide), htaba]
    · simp only [iniGet, alGet_alSet_self]

/-- C4 witness: on a concrete file with both keys, setting only the
address keeps the codename and setting only the codename keeps the
address. -/
theorem update_confg_frame_witness :
    (∃ ini1, update_confg (some (Except.ok demoIni)) "http://new" "" = Except.ok ini1 ∧
      iniGet ini1 "autovalidator" "codename" = some "computehorde" ∧
      iniGet ini1 "autovalidator" "autovalidator_address" = some "http://new") ∧
    (∃ ini2, update_confg (some (Except.ok demoIni)) "" "omron" = Except.ok ini2 ∧
      iniGet ini2 "autovalidator" "autovalidator_address" = some "http://old" ∧
      iniGet ini2 "autovalidator" "codename" = some "omron") :=
  update_confg_frame demoIni "http://old" "computehorde" "http://new" "omron"
    rfl rfl (by decide) (by decide)

/-- C5: load_config succeeds exactly when the file exists, parses,
and its autovalidator section holds both keys, and then it returns
exactly the stored pair (autovalidator_address, codename); a missing
file, a parse failure, or a missing key raises. -/
theorem load_config_spec (file : Option (Except Unit Ini)) :
    ((∃ v, load_config file = Except.ok v) ↔
      ∃ ini, file = some (Except.ok ini) ∧
        (iniGet ini "autovalidator" "autovalidator_address").isSome = true ∧
        (iniGet ini "autovalidator" "codename").isSome = true) ∧
    (∀ ini a c, file = some (Except.ok ini) →
      iniGet ini "autovalidator" "autovalidator_address" = some a →
      iniGet ini "autovalidator" "codename" = some c →
      load_config file = Except.ok (a, c)) := by
  constructor
  · constructor
    · rintro ⟨v, hv⟩
      match file with
      | none => simp [load_config] at hv
      | some (Except.error u) => simp [load_config] at hv
      | some (Except.ok ini) =>
        refine ⟨ini, rfl, ?_, ?_⟩ <;>
          (cases hA : iniGet ini "autovalidator" "autovalidator_address" <;>
            cases hC : iniGet ini "autovalidator" "codename" <;>
            simp [load_config, hA, hC] at hv ⊢)
    · rintro ⟨ini, hf, hA, hC⟩
      subst hf
      rw [Option.isSome_iff_exists] at hA hC
      obtain ⟨a, ha⟩ := hA
      obtain ⟨c, hc⟩ := hC
      exact ⟨(a, c), by simp [load_config, ha, hc]⟩
  · intro ini a c hf ha hc
    subst hf
    simp [load_config, ha, hc]

/-- C5 witness: on the concrete file with both keys, load_config
returns exactly the stored pair. -/
theorem load_config_spec_witness :
    load_config (some (Except.ok demoIni)) = Except.ok ("http://old", "computehorde") :=
  (load_config_spec (some (Except.ok demoIni))).2 demoIni "http://old" "computehorde"
    rfl rfl rfl

theorem pyLowerChar_idem (n : Nat) : pyLowerChar (pyLowerChar n) = pyLowerChar n := by
  simp only [pyLowerChar]
  split_ifs <;> omega

theorem pyLower_removeSeps (u : List Nat) :
    pyLower (removeSeps (pyLower u)) = removeSeps (pyLower u) := by
  induction u with
  | nil => rfl
  | cons a l ih =>
    show pyLower (removeSeps (pyLowerChar a :: pyLower l)) = removeSeps (pyLowerChar a :: pyLower l)
    by_cases h : isSep (pyLowerChar a)
    · simp only [removeSeps, List.filter_cons, h, Bool.not_true, if_neg] at *
      simpa [removeSeps] using ih
    · have hb : (!isSep (pyLowerChar a)) = true := by simp [h]
      simp only [removeSeps, List.filter_cons, hb, if_pos]
      show pyLowerChar (pyLowerChar a) :: pyLower (List.filter _ (pyLower l)) = _
      rw [pyLowerChar_idem]
      have := ih
      simp only [removeSeps] at this
      rw [this]

theorem specLookup_eq_lookupCodename (t : List Nat)
    (hl : pyLower t = t) :
    lookupCodename CODENAME_MAP t t = specLookup CODENAME_MAP t := by
  have hCH : aliasesCH.map pyLower = aliasesCH := by decide
  have hTP : aliasesTP.map pyLower = aliasesTP := by decide
  have hOM : aliasesOM.map pyLower =
      [codepoints "sn13", codepoints "13", codepoints "omron", codepoints "omron"] := by decide
  have hOMiff : (t ∈ aliasesOM.map pyLower) ↔ (t ∈ aliasesOM) := by
    rw [hOM]
    simp only [aliasesOM, List.mem_cons, List.not_mem_nil, or_false]
    constructor
    · rintro (h | h | h | h)
      · exact Or.inl h
      · exact Or.inr (Or.inl h)
      · exact Or.inr (Or.inr (Or.inl h))
      · exact Or.inr (Or.inr (Or.inl h))
    · rintro (h | h | h | h)
      · exact Or.inl h
      · exact Or.inr (Or.inl h)
      · exact Or.inr (Or.inr (Or.inl h))
      · exfalso
        rw [h] at hl
        exact absurd hl (by decide)
  simp only [CODENAME_MAP, lookupCodename, specLookup, hCH, hTP]
  by_cases c1 : t ∈ aliasesCH
  · rw [if_pos c1, if_pos c1]
  · rw [if_neg c1, if_neg c1]
    by_cases c2 : t ∈ aliasesOM
    · rw [if_pos (hOMiff.mpr c2), if_pos c2]
    · rw [if_neg (fun hh => c2 (hOMiff.mp hh)), if_neg c2]

/-- C6: the identifier used for the run equals the claim-side
description: lowercase the subnet identifier, delete every
underscore, hyphen and dot, and resolve the result through the alias
table, returning the canonical codename when it equals any alias and
the filtered string itself otherwise. -/
theorem runIdentifier_eq_spec (s : List Nat) :
    runIdentifier s = resolveIdentifierSpec s := by
  have hl : pyLower (removeSeps (pyLower s)) = removeSeps (pyLower s) :=
    pyLower_removeSeps s
  show normalize_codename (removeSeps (pyLower s)) = _
  rw [show normalize_codename (removeSeps (pyLower s)) =
      lookupCodename CODENAME_MAP (pyLower (removeSeps (pyLower s)))
        (removeSeps (pyLower s)) from rfl, hl]
  exact specLookup_eq_lookupCodename (removeSeps (pyLower s)) hl

theorem zipArchive_id (files : List (String × String)) : zipArchive files = files := by
  suffices h : ∀ acc, files.foldl (fun acc f => acc ++ [f]) acc = acc ++ files by
    simpa using h []
  induction files with
  | nil => intro acc; simp
  | cons f fs ih => intro acc; simp [List.foldl_cons, ih]

theorem dumpOutputs_length (shell : String → CompletedProcess) (sid : String) :
    ∀ (cmds : List String) (i : Nat), (dumpOutputs shell sid i cmds).length = cmds.length := by
  intro cmds
  induction cmds with
  | nil => intro i; rfl
  | cons c rest ih => intro i; simp [dumpOutputs, ih]

theorem dumpOutputs_get (shell : String → CompletedProcess) (sid : String) :
    ∀ (cmds : List String) (start i : Nat) (c : String), cmds[i]? = some c →
      (dumpOutputs shell sid start cmds)[i]? =
        some (outputFileName sid (start + i),
          "Command: " ++ c ++ "\n" ++ (shell c).stdout) := by
  intro cmds
  induction cmds with
  | nil => intro start i c h; simp at h
  | cons c0 rest ih =>
    intro start i c h
    cases i with
    | zero =>
      simp only [List.getElem?_cons_zero, Option.some.injEq] at h
      subst h
      simp [dumpOutputs]
    | succ n =>
      simp only [List.getElem?_cons_succ] at h
      simp only [dumpOutputs, List.getElem?_cons_succ]
      rw [show start + (n + 1) = start + 1 + n from by omega]
      exact ih (start + 1) n c h

/-- C7: for every shell oracle (failing commands included, since
nothing depends on the return code) the command loop processes every
command in order: the zip archive has one entry per command, and the
i-th entry (0-based i, 1-based file index) is named
subnet_i+1.txt and holds the command line, a newline, and the
captured stdout of that command. -/
theorem dump_loop_spec (shell : String → CompletedProcess) (sid : String)
    (commands : List String) (hne : commands ≠ []) :
    (zipArchive (dumpOutputs shell sid 1 commands)).length = commands.length ∧
    ∀ i c, commands[i]? = some c →
      (zipArchive (dumpOutputs shell sid 1 commands))[i]? =
        some (outputFileName sid (i + 1),
          "Command: " ++ c ++ "\n" ++ (shell c).stdout) := by
  rw [zipArchive_id]
  refine ⟨dumpOutputs_length shell sid commands 1, fun i c h => ?_⟩
  rw [dumpOutputs_get shell sid commands 1 i c h,
    show 1 + i = i + 1 from by omega]

/-- C7 witness: with the echo oracle the zip holds exactly the two
expected files. -/
theorem dump_loop_spec_witness :
    (zipArchive (dumpOutputs shellAB "computehorde" 1 ["echo A", "echo B"]))[0]? =
      some ("computehorde_1.txt", "Command: echo A\nA\n") ∧
    (zipArchive (dumpOutputs shellAB "computehorde" 1 ["echo A", "echo B"]))[1]? =
      some ("computehorde_2.txt", "Command: echo B\nB\n") := by
  constructor
  · rw [(dump_loop_spec shellAB "computehorde" ["echo A", "echo B"] (by simp)).2 0
      "echo A" rfl]
    decide
  · rw [(dump_loop_spec shellAB "computehorde" ["echo A", "echo B"] (by simp)).2 1
      "echo B" rfl]
    decide
